import Mathlib

/-!
frpembed: configuration validation, option accumulation, translation and lifecycle.

A shallow embedding of `frpembed.go` (package `frpembed`).

Modelling conventions.

* A Go `error` result is an `Option GoError`; `none` is the `nil` error.
* `errors.New` and `fmt.Errorf` values are kept structured (format string, formatted
  arguments, wrapped cause) instead of being rendered to text.
* Go slices are lists (a `nil` slice and an empty slice are both `[]`), Go `int` and
  `time.Duration` are `Int` (no arithmetic is performed on them by this package).
* The `Logger` interface, and the engine types of the `frp` library, are not part of this
  repository; they are type parameters (`L` for logger values, `R` and `C` for the fields
  of the engine's proxy and client configurations that this package never touches).
* `Run` is modelled as a function from the engine's observable behaviour (`Engine`) to the
  returned error together with the ordered trace of calls made into the engine and the
  logging library.
-/

namespace Frpembed

/-! ## Errors -/

/-- Go error values produced or passed through by the package. -/
inductive GoError where
  /-- The value of `errors.New(msg)`. -/
  | new (msg : String)
  /-- The value of `fmt.Errorf(format, args...)` without a `%w` verb. -/
  | errorf (format : String) (args : List String)
  /-- The value of `fmt.Errorf(format, args..., cause)` whose last verb is `%w`. -/
  | wrap (format : String) (args : List String) (cause : GoError)
  /-- An error value handed in from outside the package (context or engine). -/
  | foreign (tag : String)
  deriving DecidableEq, Repr

/-! ## Data model -/

/-- The value of `time.Second`, in nanoseconds. -/
def Second : Int := 1000000000

/-- Go `type ProxyConfig struct`. -/
structure ProxyConfig where
  Name : String
  TargetDomain : String
  UseEncryption : Bool
  UseCompression : Bool
  LocalPort : Int
  deriving DecidableEq, Repr

/-- Go `type config struct`; `CustomLogger` is an interface value, `none` when `nil`. -/
structure config (L : Type) where
  AdapterName : String
  AdapterConfig : List String
  CustomLogger : Option L
  serverPort : Int
  proxies : List ProxyConfig
  gracefulCloseDuration : Int
  deriving DecidableEq, Repr

/-- Go `type ConfigOpt func(*config)`: the in-place mutation becomes a state transformer. -/
abbrev ConfigOpt (L : Type) := config L → config L

variable {L R C : Type}

/-- Go `WithLogAdapter(name, configs...)`. -/
def WithLogAdapter (name : String) (configs : List String) : ConfigOpt L :=
  fun c => { c with AdapterName := name, AdapterConfig := configs }

/-- Go `WithCustomLogger(lg)`; `lg` may be the `nil` interface. -/
def WithCustomLogger (lg : Option L) : ConfigOpt L :=
  fun c => { c with CustomLogger := lg }

/-- Go `WithProxies(proxies...)`: `c.proxies = append(c.proxies, proxies...)`. -/
def WithProxies (proxies : List ProxyConfig) : ConfigOpt L :=
  fun c => { c with proxies := c.proxies ++ proxies }

/-- Go `WithGracefulCloseDuration(d)`. -/
def WithGracefulCloseDuration (d : Int) : ConfigOpt L :=
  fun c => { c with gracefulCloseDuration := d }

/-! ## Validation -/

/-- Go `func (pc ProxyConfig) validate() error`. -/
def ProxyConfig.validate (pc : ProxyConfig) : Option GoError :=
  if pc.Name = "" then
    some (GoError.new "no proxy name was specified")
  else if pc.TargetDomain = "" then
    some (GoError.new "no target domain was specified")
  else if pc.LocalPort = 0 then
    some (GoError.new "no local port was specified")
  else
    none

/-- The `for _, pc := range c.proxies` loop of `config.validate`. -/
def validateLoop : List ProxyConfig → Option GoError
  | [] => none
  | pc :: rest =>
    match pc.validate with
    | some err => some (GoError.wrap "failed to validate proxy %q: %w" [pc.Name] err)
    | none => validateLoop rest

/-- Go `func (c *config) validate() error`. -/
def config.validate (c : config L) : Option GoError :=
  let adapterSet := c.AdapterName != "" || decide (c.AdapterConfig.length > 0)
  let customLoggerSet := c.CustomLogger.isSome
  if adapterSet && customLoggerSet then
    some (GoError.new "can only set one of adapter logger or custom logger")
  else
    validateLoop c.proxies

/-- The zero value `config{}` of Go. -/
def config.zero : config L :=
  { AdapterName := "", AdapterConfig := [], CustomLogger := none, serverPort := 0,
    proxies := [], gracefulCloseDuration := 0 }

/-- The configuration `Run` starts from: `&config{gracefulCloseDuration: 5 * time.Second}`. -/
def config.fresh : config L :=
  { (config.zero : config L) with gracefulCloseDuration := 5 * Second }

/-- The `for _, o := range opts { o(cfg) }` loop of `Run`. -/
def applyOpts (opts : List (ConfigOpt L)) (c : config L) : config L :=
  opts.foldl (fun acc o => o acc) c

/-! ## Engine-side types (library `frp`, outside this repository) -/

/-- Go `frpconfig.DomainConf`. -/
structure DomainConf where
  CustomDomains : List String
  SubDomain : String
  deriving DecidableEq, Repr

/-- The fields of `frpconfig.HTTPProxyConf` this package writes; `rest` stands for all the
fields it never touches. -/
structure HTTPProxyConf (R : Type) where
  ProxyName : String
  UseEncryption : Bool
  UseCompression : Bool
  LocalPort : Int
  DomainConf : DomainConf
  Locations : List String
  rest : R
  deriving DecidableEq, Repr

/-- Go interface `frpconfig.ProxyConf`: either a `*HTTPProxyConf`, or a value of some other
dynamic type, identified by its `%T` rendering. -/
inductive ProxyConf (R : Type) where
  | http (conf : HTTPProxyConf R)
  | other (typeName : String)
  deriving DecidableEq, Repr

/-- The fields of the engine's client configuration that `Run` writes; `rest` stands for
all the others. -/
structure ClientCommonConf (C : Type) where
  AuthenticationMethod : String
  Token : String
  ServerAddr : String
  ServerPort : Int
  rest : C
  deriving DecidableEq, Repr

/-- A Go `map[string]V` built by assignments only: an association list with at most one
entry per key. -/
abbrev GoMap (V : Type) := List (String × V)

/-- Go `m[k] = v`. -/
def GoMap.set {V : Type} : GoMap V → String → V → GoMap V
  | [], k, v => [(k, v)]
  | (k0, v0) :: rest, k, v =>
    if k0 = k then (k, v) :: rest else (k0, v0) :: GoMap.set rest k v

/-- Go `v, ok := m[k]`. -/
def GoMap.get? {V : Type} : GoMap V → String → Option V
  | [], _ => none
  | (k0, v0) :: rest, k => if k0 = k then some v0 else GoMap.get? rest k

/-- Go `len(m)`. -/
def GoMap.size {V : Type} (m : GoMap V) : Nat := m.length

/-- The keys present in the map. -/
def GoMap.keys {V : Type} (m : GoMap V) : List String := m.map Prod.fst

/-! ## Translation -/

/-- Go `toHTTPProxyConf(pc)`. The argument `defaultProxyCfg` is the value returned by
`frpconfig.DefaultProxyConf(frpconsts.HTTPProxy)`, a fresh object on every call. -/
def toHTTPProxyConf (defaultProxyCfg : ProxyConf R) (pc : ProxyConfig) :
    Except GoError (HTTPProxyConf R) :=
  match defaultProxyCfg with
  | ProxyConf.other typeName =>
    Except.error (GoError.errorf
      "unexpected default proxy config type %T, expected *frpconfig.HTTPProxyConf" [typeName])
  | ProxyConf.http proxyCfg =>
    Except.ok { proxyCfg with
      ProxyName := pc.Name
      UseEncryption := pc.UseEncryption
      UseCompression := pc.UseCompression
      LocalPort := pc.LocalPort
      DomainConf := { CustomDomains := [], SubDomain := pc.TargetDomain }
      Locations := ["/"] }

/-- The `for _, pc := range cfg.proxies` loop of `Run` that fills `proxyConf`. -/
def convertLoop (defaultProxyCfg : ProxyConf R) :
    List ProxyConfig → GoMap (ProxyConf R) → Except GoError (GoMap (ProxyConf R))
  | [], proxyConf => Except.ok proxyConf
  | pc :: rest, proxyConf =>
    match toHTTPProxyConf defaultProxyCfg pc with
    | Except.error err =>
      Except.error (GoError.wrap "failed to convert config %q: %w" [pc.Name] err)
    | Except.ok hpc =>
      convertLoop defaultProxyCfg rest (GoMap.set proxyConf pc.Name (ProxyConf.http hpc))

/-! ## Lifecycle -/

/-- Which case of the final `select` of `Run` fires, with the value that case returns. -/
inductive Outcome where
  /-- The case `<-ctx.Done()`, carrying the value of `ctx.Err()`. -/
  | ctxDone (ctxErr : Option GoError)
  /-- The case `err := <-errC`, carrying the value `svr.Run()` returned. -/
  | engineDone (runErr : Option GoError)
  /-- Neither channel ever becomes ready: the `select` blocks forever. -/
  | never
  deriving DecidableEq, Repr

/-- What a call of `Run` does for its caller. -/
inductive RunResult where
  /-- The call returns `err`. -/
  | returned (err : Option GoError)
  /-- The call stays blocked in its `select` and never returns. -/
  | blocked
  deriving DecidableEq, Repr

/-- The observable behaviour of the collaborators of `Run` during one call. -/
structure Engine (R C : Type) where
  /-- Result of `frpconfig.GetDefaultClientConf()`. -/
  defaultClientConf : ClientCommonConf C
  /-- Result of `frpconfig.DefaultProxyConf(frpconsts.HTTPProxy)`. -/
  defaultProxyConf : ProxyConf R
  /-- Error result of `frpclient.NewService(conf, proxyConf, visitors, "")`. -/
  newService : ClientCommonConf C → GoMap (ProxyConf R) → Option GoError
  /-- The case the `select` takes. -/
  selected : Outcome
  /-- Whatever the deferred `svr.GracefulClose` call reports back. -/
  gracefulCloseResult : Option GoError

/-- Calls made by `Run` into the logging library and the engine, in program order. -/
inductive Effect (L R C : Type) where
  /-- Call `beegologs.Register(name, func() Logger { return lg })`. -/
  | register (name : String) (lg : L)
  /-- Call `frplog.Log.SetLogger(adapterName, configs...)`. -/
  | setLogger (adapterName : String) (configs : List String)
  /-- Call `frpclient.NewService(conf, proxyConf, visitors, "")`. -/
  | newService (conf : ClientCommonConf C) (proxyConf : GoMap (ProxyConf R))
  /-- Statement `go func() { errC <- svr.Run() }()`. -/
  | goRun
  /-- Call `svr.GracefulClose(d)`, run by the `defer`. -/
  | gracefulClose (d : Int)
  deriving DecidableEq, Repr

/-- The `switch` of `Run` under the comment `Configure logging.`. -/
def configureLogging (cfg : config L) : List (Effect L R C) :=
  match cfg.CustomLogger with
  | some lg => [Effect.register "custom" lg, Effect.setLogger "custom" [""]]
  | none =>
    if cfg.AdapterName ≠ "" then [Effect.setLogger cfg.AdapterName cfg.AdapterConfig]
    else []

/-- The engine configuration `Run` assembles from `GetDefaultClientConf()`. -/
def clientConf (eng : Engine R C) (serverAddr token : String) (cfg : config L) :
    ClientCommonConf C :=
  let conf := { eng.defaultClientConf with
    AuthenticationMethod := "token", Token := token, ServerAddr := serverAddr }
  if cfg.serverPort ≠ 0 then { conf with ServerPort := cfg.serverPort } else conf

/-- Go `Run(ctx, serverAddr, token, opts...)`: the returned error and the trace of calls. -/
def Run (eng : Engine R C) (serverAddr token : String) (opts : List (ConfigOpt L)) :
    RunResult × List (Effect L R C) :=
  let cfg := applyOpts opts config.fresh
  match cfg.validate with
  | some err => (RunResult.returned (some (GoError.wrap "invalid config: %w" [] err)), [])
  | none =>
    let conf := clientConf eng serverAddr token cfg
    let logging : List (Effect L R C) := configureLogging cfg
    match convertLoop eng.defaultProxyConf cfg.proxies [] with
    | Except.error err => (RunResult.returned (some err), logging)
    | Except.ok proxyConf =>
      match eng.newService conf proxyConf with
      | some err =>
        (RunResult.returned (some (GoError.wrap "failed to init FRP client: %w" [] err)),
          logging ++ [Effect.newService conf proxyConf])
      | none =>
        let started : List (Effect L R C) :=
          logging ++ [Effect.newService conf proxyConf, Effect.goRun]
        let deferred : List (Effect L R C) := [Effect.gracefulClose cfg.gracefulCloseDuration]
        match eng.selected with
        | Outcome.ctxDone ctxErr => (RunResult.returned ctxErr, started ++ deferred)
        | Outcome.engineDone runErr => (RunResult.returned runErr, started ++ deferred)
        | Outcome.never => (RunResult.blocked, started)

/-! ## Specification-side vocabulary -/

/-- The trace entry is a call into the logging library. -/
def Effect.isLogging : Effect L R C → Bool
  | Effect.register _ _ => true
  | Effect.setLogger _ _ => true
  | _ => false

/-- The trace entry selects a logging adapter. -/
def Effect.isSetLogger : Effect L R C → Bool
  | Effect.setLogger _ _ => true
  | _ => false

/-- The trace entry is a graceful-shutdown call. -/
def Effect.isGracefulClose : Effect L R C → Bool
  | Effect.gracefulClose _ => true
  | _ => false

/-- The cause the specification names for an incomplete descriptor: the first missing field
in the order name, target domain, local port. -/
def firstMissingField (pc : ProxyConfig) : GoError :=
  if pc.Name = "" then GoError.new "no proxy name was specified"
  else if pc.TargetDomain = "" then GoError.new "no target domain was specified"
  else GoError.new "no local port was specified"

/-- A call of one of the four exported option constructors, as written by a caller. -/
inductive OptCall (L : Type) where
  | logAdapter (name : String) (configs : List String)
  | customLogger (lg : Option L)
  | proxies (ps : List ProxyConfig)
  | gracefulCloseDuration (d : Int)

/-- The option value a constructor call evaluates to. -/
def OptCall.toOpt : OptCall L → ConfigOpt L
  | OptCall.logAdapter name configs => WithLogAdapter name configs
  | OptCall.customLogger lg => WithCustomLogger lg
  | OptCall.proxies ps => WithProxies ps
  | OptCall.gracefulCloseDuration d => WithGracefulCloseDuration d

/-- The graceful-close budget the specification names: the value of the last
`WithGracefulCloseDuration` call after `dflt`, or `dflt` when there is none. -/
def lastGracefulClose (dflt : Int) : List (OptCall L) → Int
  | [] => dflt
  | OptCall.gracefulCloseDuration d :: rest => lastGracefulClose d rest
  | _ :: rest => lastGracefulClose dflt rest

/-- Translation of a descriptor against an HTTP-shaped default, as stored in the map. -/
def translated (d : HTTPProxyConf R) (pc : ProxyConfig) : ProxyConf R :=
  ProxyConf.http { d with
    ProxyName := pc.Name
    UseEncryption := pc.UseEncryption
    UseCompression := pc.UseCompression
    LocalPort := pc.LocalPort
    DomainConf := { CustomDomains := [], SubDomain := pc.TargetDomain }
    Locations := ["/"] }

/-! ## Concrete inputs -/

/-- The valid descriptor of `TestConfigValidate`. -/
def testProxy : ProxyConfig :=
  { Name := "test", TargetDomain := "testsite", UseEncryption := true,
    UseCompression := true, LocalPort := 3000 }

/-- The descriptor of `TestConfigValidate` that misses its name. -/
def proxyMissingName : ProxyConfig :=
  { Name := "", TargetDomain := "testsite", UseEncryption := true,
    UseCompression := true, LocalPort := 3000 }

/-- A descriptor that misses both its target domain and its local port. -/
def proxyMissingDomain : ProxyConfig :=
  { Name := "b", TargetDomain := "", UseEncryption := true,
    UseCompression := false, LocalPort := 0 }

/-- A configuration with adapter arguments only (no adapter name) and a custom logger. -/
def argsAndCustomLogger : config Unit :=
  { AdapterName := "", AdapterConfig := ["x"], CustomLogger := some Unit.unit,
    serverPort := 0, proxies := [], gracefulCloseDuration := 0 }

/-- A configuration with the `file` adapter, whose second descriptor is the first invalid
one. -/
def secondProxyInvalid : config Unit :=
  { AdapterName := "file", AdapterConfig := [], CustomLogger := none, serverPort := 0,
    proxies := [testProxy, proxyMissingDomain, proxyMissingName],
    gracefulCloseDuration := 0 }

/-- The configuration of `TestConfigValidate` with no logging selection and a descriptor
that misses its name. -/
def onlyProxyMissingName : config Unit :=
  { AdapterName := "", AdapterConfig := [], CustomLogger := none, serverPort := 0,
    proxies := [proxyMissingName], gracefulCloseDuration := 0 }

/-- A configuration with only a custom logger and the valid descriptor. -/
def customLoggerOnly : config Unit :=
  { AdapterName := "", AdapterConfig := [], CustomLogger := some Unit.unit,
    serverPort := 0, proxies := [testProxy], gracefulCloseDuration := 0 }

/-- An HTTP-shaped default proxy configuration with zero-valued fields. -/
def defaultHTTP : HTTPProxyConf Unit :=
  { ProxyName := "", UseEncryption := false, UseCompression := false, LocalPort := 0,
    DomainConf := { CustomDomains := [], SubDomain := "" }, Locations := [],
    rest := Unit.unit }

/-- An engine that accepts every configuration and whose caller cancels first. -/
def engineCancelled : Engine Unit Unit :=
  { defaultClientConf := { AuthenticationMethod := "", Token := "", ServerAddr := "0.0.0.0",
                           ServerPort := 7000, rest := Unit.unit },
    defaultProxyConf := ProxyConf.http defaultHTTP,
    newService := fun _ _ => none,
    selected := Outcome.ctxDone (some (GoError.foreign "context canceled")),
    gracefulCloseResult := some (GoError.foreign "close failed") }

/-- An engine that accepts every configuration and whose run loop finishes first, with an
error. -/
def engineFailed : Engine Unit Unit :=
  { engineCancelled with
    selected := Outcome.engineDone (some (GoError.foreign "login to server failed")) }

/-- The valid descriptor of the test under the same name but another port and domain. -/
def testProxyAgain : ProxyConfig :=
  { Name := "test", TargetDomain := "othersite", UseEncryption := false,
    UseCompression := false, LocalPort := 4000 }

/-- The option list of the package documentation example, with the test descriptor. -/
def exampleOpts : List (ConfigOpt Unit) := [WithProxies [testProxy]]

/-- Option calls that set the graceful-close budget twice around a proxy option. -/
def twoBudgets : List (OptCall Unit) :=
  [OptCall.gracefulCloseDuration (2 * Second), OptCall.proxies [testProxy],
    OptCall.gracefulCloseDuration (9 * Second)]

/-- Option calls whose only descriptor misses its name. -/
def invalidCalls : List (OptCall Unit) :=
  [OptCall.customLogger (some Unit.unit), OptCall.proxies [proxyMissingName]]

/-- Options selecting a custom logger only. -/
def customLoggerOpts : List (ConfigOpt Unit) :=
  [WithCustomLogger (some Unit.unit), WithProxies [testProxy]]

/-- Options giving two descriptors that share the name `test`. -/
def sameNameOpts : List (ConfigOpt Unit) := [WithProxies [testProxy], WithProxies [testProxyAgain]]

/-! ## Validation: auxiliary facts -/

theorem ProxyConfig.validate_eq_none_iff (pc : ProxyConfig) :
    pc.validate = none ↔ pc.Name ≠ "" ∧ pc.TargetDomain ≠ "" ∧ pc.LocalPort ≠ 0 := by
  unfold ProxyConfig.validate
  by_cases h1 : pc.Name = "" <;> by_cases h2 : pc.TargetDomain = "" <;>
    by_cases h3 : pc.LocalPort = 0 <;> simp [h1, h2, h3]

theorem ProxyConfig.validate_eq_firstMissingField (pc : ProxyConfig)
    (h : pc.validate ≠ none) : pc.validate = some (firstMissingField pc) := by
  unfold ProxyConfig.validate firstMissingField at *
  by_cases h1 : pc.Name = "" <;> by_cases h2 : pc.TargetDomain = "" <;>
    by_cases h3 : pc.LocalPort = 0 <;> simp_all

theorem validateLoop_eq_none_iff (ps : List ProxyConfig) :
    validateLoop ps = none ↔ ∀ pc ∈ ps, pc.validate = none := by
  induction ps with
  | nil => simp [validateLoop]
  | cons pc rest ih =>
    cases hpc : pc.validate with
    | none => simp [validateLoop, hpc, ih]
    | some err => simp [validateLoop, hpc]

theorem validateLoop_append_invalid (pre post : List ProxyConfig) (pc : ProxyConfig)
    (hpre : ∀ p ∈ pre, p.validate = none) (err : GoError) (hpc : pc.validate = some err) :
    validateLoop (pre ++ pc :: post)
      = some (GoError.wrap "failed to validate proxy %q: %w" [pc.Name] err) := by
  induction pre with
  | nil => simp [validateLoop, hpc]
  | cons p rest ih =>
    have hp : p.validate = none := hpre p (List.mem_cons_self _ _)
    have hrest : ∀ q ∈ rest, q.validate = none :=
      fun q hq => hpre q (List.mem_cons_of_mem _ hq)
    simp [validateLoop, hp, ih hrest]

theorem exists_first_invalid (ps : List ProxyConfig)
    (h : ∃ pc ∈ ps, pc.validate ≠ none) :
    ∃ pre pc post, ps = pre ++ pc :: post ∧ (∀ p ∈ pre, p.validate = none) ∧
      pc.validate ≠ none := by
  induction ps with
  | nil => simp at h
  | cons p rest ih =>
    by_cases hp : p.validate = none
    · have h2 : ∃ pc ∈ rest, pc.validate ≠ none := by
        obtain ⟨pc, hmem, hne⟩ := h
        rcases List.mem_cons.1 hmem with heq | hin
        · exact absurd (heq ▸ hp) hne
        · exact ⟨pc, hin, hne⟩
      obtain ⟨pre, pc, post, heq, hpre, hne⟩ := ih h2
      refine ⟨p :: pre, pc, post, by simp [heq], ?_, hne⟩
      intro q hq
      rcases List.mem_cons.1 hq with h1 | h1
      · exact h1 ▸ hp
      · exact hpre q h1
    · exact ⟨[], p, rest, rfl, by simp, hp⟩

theorem config.conflict_iff (c : config L) :
    ((c.AdapterName != "" || decide (c.AdapterConfig.length > 0)) && c.CustomLogger.isSome) = true
      ↔ (c.AdapterName ≠ "" ∨ c.AdapterConfig ≠ []) ∧ c.CustomLogger ≠ none := by
  simp [List.length_pos, Option.isSome_iff_ne_none]

theorem config.validate_of_conflict (c : config L)
    (h : (c.AdapterName ≠ "" ∨ c.AdapterConfig ≠ []) ∧ c.CustomLogger ≠ none) :
    c.validate = some (GoError.new "can only set one of adapter logger or custom logger") := by
  have hb := (config.conflict_iff c).2 h
  unfold config.validate
  simp only [hb, if_true]

theorem config.validate_of_no_conflict (c : config L)
    (h : ¬ ((c.AdapterName ≠ "" ∨ c.AdapterConfig ≠ []) ∧ c.CustomLogger ≠ none)) :
    c.validate = validateLoop c.proxies := by
  have hb : ¬ (((c.AdapterName != "" || decide (c.AdapterConfig.length > 0))
      && c.CustomLogger.isSome) = true) := fun hb => h ((config.conflict_iff c).1 hb)
  unfold config.validate
  simp only [hb, if_false]
  rfl

theorem validateLoop_flags (f g : ProxyConfig → Bool) (ps : List ProxyConfig) :
    validateLoop (ps.map (fun pc => { pc with UseEncryption := f pc, UseCompression := g pc }))
      = validateLoop ps := by
  induction ps with
  | nil => rfl
  | cons pc rest ih =>
    simp only [List.map_cons, validateLoop, ProxyConfig.validate, ih]

/-! ## Validation: the claims -/

/-- C1: `config.validate` returns no error exactly when (a) the adapter (name or arguments)
and the custom logger are not both set and (b) every descriptor has a non-empty name, a
non-empty target domain and a non-zero local port; without a logger conflict the empty
proxy list validates; and rewriting the `UseEncryption` / `UseCompression` flags of the
descriptors in any way leaves the result of `validate` unchanged. -/
theorem C1_validate_iff (c : config L) :
    (c.validate = none ↔
      (¬ ((c.AdapterName ≠ "" ∨ c.AdapterConfig ≠ []) ∧ c.CustomLogger ≠ none) ∧
        ∀ pc ∈ c.proxies, pc.Name ≠ "" ∧ pc.TargetDomain ≠ "" ∧ pc.LocalPort ≠ 0)) ∧
    (¬ ((c.AdapterName ≠ "" ∨ c.AdapterConfig ≠ []) ∧ c.CustomLogger ≠ none) →
      ({ c with proxies := [] }).validate = none) ∧
    (∀ f g : ProxyConfig → Bool,
      (config.validate { c with proxies := (c.proxies.map (fun pc =>
          { pc with UseEncryption := f pc, UseCompression := g pc })) }) = c.validate) := by
  refine ⟨?_, ?_, ?_⟩
  · by_cases h : (c.AdapterName ≠ "" ∨ c.AdapterConfig ≠ []) ∧ c.CustomLogger ≠ none
    · rw [config.validate_of_conflict c h]
      constructor
      · intro hc
        cases hc
      · intro hc
        exact absurd h hc.1
    · rw [config.validate_of_no_conflict c h, validateLoop_eq_none_iff]
      constructor
      · intro hall
        exact ⟨h, fun pc hpc => (ProxyConfig.validate_eq_none_iff pc).1 (hall pc hpc)⟩
      · intro hall pc hpc
        exact (ProxyConfig.validate_eq_none_iff pc).2 (hall.2 pc hpc)
  · intro h
    exact (config.validate_of_no_conflict { c with proxies := [] } h).trans rfl
  · intro f g
    by_cases h : (c.AdapterName ≠ "" ∨ c.AdapterConfig ≠ []) ∧ c.CustomLogger ≠ none
    · exact (config.validate_of_conflict { c with proxies := (c.proxies.map (fun pc =>
          { pc with UseEncryption := f pc, UseCompression := g pc })) } h).trans
        (config.validate_of_conflict c h).symm
    · exact ((config.validate_of_no_conflict { c with proxies := (c.proxies.map (fun pc =>
          { pc with UseEncryption := f pc, UseCompression := g pc })) } h).trans
        (validateLoop_flags f g c.proxies)).trans (config.validate_of_no_conflict c h).symm

/-- C2: whenever a custom logger is set together with an adapter name or with adapter
arguments, `config.validate` fails with the error
`can only set one of adapter logger or custom logger`, whatever the proxy list holds. -/
theorem C2_conflicting_logger (c : config L)
    (hadapter : c.AdapterName ≠ "" ∨ c.AdapterConfig ≠ [])
    (hcustom : c.CustomLogger ≠ none) :
    ∀ ps : List ProxyConfig,
      ({ c with proxies := ps }).validate
        = some (GoError.new "can only set one of adapter logger or custom logger") :=
  fun ps => config.validate_of_conflict { c with proxies := ps } ⟨hadapter, hcustom⟩

/-- C2 at a concrete input: adapter arguments alone (empty adapter name) plus a custom
logger, with a proxy list holding an invalid descriptor. -/
theorem C2_conflicting_logger_witness :
    (argsAndCustomLogger.AdapterName ≠ "" ∨ argsAndCustomLogger.AdapterConfig ≠ []) ∧
    argsAndCustomLogger.CustomLogger ≠ none ∧
    ({ argsAndCustomLogger with proxies := [proxyMissingName, testProxy] }).validate
      = some (GoError.new "can only set one of adapter logger or custom logger") :=
  ⟨Or.inr (by decide), by decide,
    C2_conflicting_logger argsAndCustomLogger (Or.inr (by decide)) (by decide)
      [proxyMissingName, testProxy]⟩

/-- C3: without a logger conflict, if some descriptor of the proxy list is invalid then the
list splits as `pre ++ pc :: post` with every descriptor of `pre` valid and `pc` invalid,
and `config.validate` returns the error
`failed to validate proxy %q: %w` formatted with `pc.Name` and wrapping the cause that
names the first missing field of `pc` (name, then target domain, then local port); the
same error is returned whatever follows `pc` in the list. -/
theorem C3_fail_fast (c : config L)
    (hconf : ¬ ((c.AdapterName ≠ "" ∨ c.AdapterConfig ≠ []) ∧ c.CustomLogger ≠ none))
    (hbad : ∃ pc ∈ c.proxies, pc.validate ≠ none) :
    ∃ pre pc post, c.proxies = pre ++ pc :: post ∧
      (∀ p ∈ pre, p.validate = none) ∧ pc.validate ≠ none ∧
      c.validate = some (GoError.wrap "failed to validate proxy %q: %w" [pc.Name]
        (firstMissingField pc)) ∧
      (pc.Name = "" → c.validate = some (GoError.wrap "failed to validate proxy %q: %w" [""]
        (GoError.new "no proxy name was specified"))) ∧
      ∀ post2 : List ProxyConfig,
        ({ c with proxies := pre ++ pc :: post2 }).validate = c.validate := by
  obtain ⟨pre, pc, post, heq, hpre, hne⟩ := exists_first_invalid c.proxies hbad
  have hcause := ProxyConfig.validate_eq_firstMissingField pc hne
  have hval : c.validate = some (GoError.wrap "failed to validate proxy %q: %w" [pc.Name]
      (firstMissingField pc)) := by
    rw [config.validate_of_no_conflict c hconf, heq]
    exact validateLoop_append_invalid pre post pc hpre _ hcause
  refine ⟨pre, pc, post, heq, hpre, hne, hval, ?_, ?_⟩
  · intro hname
    rw [hval]
    simp [firstMissingField, hname]
  · intro post2
    rw [hval]
    exact (config.validate_of_no_conflict { c with proxies := pre ++ pc :: post2 } hconf).trans
      (validateLoop_append_invalid pre post2 pc hpre _ hcause)

/-- C3 at a concrete input: a valid descriptor, then one missing its target domain and its
port, then one missing its name; the reported descriptor is the second and the cause is the
missing target domain. -/
theorem C3_fail_fast_witness :
    ¬ ((secondProxyInvalid.AdapterName ≠ "" ∨ secondProxyInvalid.AdapterConfig ≠ []) ∧
        secondProxyInvalid.CustomLogger ≠ none) ∧
    (∃ pc ∈ secondProxyInvalid.proxies, pc.validate ≠ none) ∧
    (∃ pre pc post, secondProxyInvalid.proxies = pre ++ pc :: post ∧
      (∀ p ∈ pre, p.validate = none) ∧ pc.validate ≠ none ∧
      secondProxyInvalid.validate
        = some (GoError.wrap "failed to validate proxy %q: %w" [pc.Name]
            (firstMissingField pc))) ∧
    secondProxyInvalid.validate
      = some (GoError.wrap "failed to validate proxy %q: %w" ["b"]
          (GoError.new "no target domain was specified")) := by
  refine ⟨by decide, ⟨proxyMissingDomain, by decide, by decide⟩, ?_, by decide⟩
  obtain ⟨pre, pc, post, h1, h2, h3, h4, _⟩ := C3_fail_fast secondProxyInvalid
    (by decide) ⟨proxyMissingDomain, by decide, by decide⟩
  exact ⟨pre, pc, post, h1, h2, h3, h4⟩

/-- C4, as stated, fails: with no logging selection at all, a proxy list holding a descriptor
without a name makes `config.validate` return an error. -/
theorem C4_counterexample :
    ¬ ((onlyProxyMissingName.AdapterName ≠ "" ∨ onlyProxyMissingName.AdapterConfig ≠ []) ∨
        onlyProxyMissingName.CustomLogger ≠ none) ∧
    onlyProxyMissingName.validate
      = some (GoError.wrap "failed to validate proxy %q: %w" [""]
          (GoError.new "no proxy name was specified")) ∧
    ¬ (∀ c : config Unit,
        ¬ ((c.AdapterName ≠ "" ∨ c.AdapterConfig ≠ []) ∧ c.CustomLogger ≠ none) →
        c.validate = none) := by
  refine ⟨by decide, by decide, ?_⟩
  intro h
  have h2 := h onlyProxyMissingName (by decide)
  revert h2
  decide

/-- C4, amended: when the adapter and the custom logger are not both set and every descriptor
of the proxy list is valid, `config.validate` succeeds, whatever the server port and the
graceful-close duration are. -/
theorem C4_validate_succeeds (c : config L)
    (hconf : ¬ ((c.AdapterName ≠ "" ∨ c.AdapterConfig ≠ []) ∧ c.CustomLogger ≠ none))
    (hvalid : ∀ pc ∈ c.proxies, pc.validate = none) :
    ∀ port d : Int,
      ({ c with serverPort := port, gracefulCloseDuration := d }).validate = none := by
  intro port d
  exact (config.validate_of_no_conflict
    { c with serverPort := port, gracefulCloseDuration := d } hconf).trans
    ((validateLoop_eq_none_iff c.proxies).2 hvalid)

/-- C4 amended, at a concrete input: only a custom logger set, one valid descriptor. -/
theorem C4_validate_succeeds_witness :
    ¬ ((customLoggerOnly.AdapterName ≠ "" ∨ customLoggerOnly.AdapterConfig ≠ []) ∧
        customLoggerOnly.CustomLogger ≠ none) ∧
    (∀ pc ∈ customLoggerOnly.proxies, pc.validate = none) ∧
    ({ customLoggerOnly with serverPort := 7000, gracefulCloseDuration := -1 }).validate
      = none :=
  ⟨by decide, by decide, C4_validate_succeeds customLoggerOnly (by decide) (by decide) 7000 (-1)⟩

/-! ## Option accumulation -/

/-- C5: applying `WithProxies A` and then `WithProxies B` to a configuration `c` yields `c`
with its proxy list replaced by `c.proxies ++ A ++ B` and every other field unchanged; this
also holds through the option loop of `Run`, and from the fresh configuration of `Run` the
final list is `A ++ B`. -/
theorem C5_WithProxies_cumulative (c : config L) (A B : List ProxyConfig) :
    WithProxies B (WithProxies A c) = { c with proxies := c.proxies ++ A ++ B } ∧
    applyOpts [WithProxies A, WithProxies B] c = { c with proxies := c.proxies ++ A ++ B } ∧
    (applyOpts [WithProxies A, WithProxies B] (config.fresh : config L)).proxies = A ++ B ∧
    applyOpts [WithProxies A, WithProxies B] (config.fresh : config L)
      = { (config.fresh : config L) with proxies := A ++ B } := by
  refine ⟨rfl, rfl, ?_, ?_⟩
  · simp [applyOpts, WithProxies, config.fresh, config.zero]
  · simp [applyOpts, WithProxies, config.fresh, config.zero]

/-! ## The name-keyed map: auxiliary facts -/

theorem GoMap.get?_set {V : Type} (m : GoMap V) (k k2 : String) (v : V) :
    GoMap.get? (GoMap.set m k v) k2 = if k = k2 then some v else GoMap.get? m k2 := by
  induction m with
  | nil => simp [GoMap.set, GoMap.get?]
  | cons e rest ih =>
    obtain ⟨k0, v0⟩ := e
    by_cases h0 : k0 = k
    · subst h0
      by_cases h2 : k0 = k2 <;> simp [GoMap.set, GoMap.get?, h2]
    · by_cases h2 : k0 = k2
      · subst h2
        simp [GoMap.set, GoMap.get?, h0, Ne.symm h0]
      · simp [GoMap.set, GoMap.get?, h0, h2, ih]

theorem GoMap.keys_set {V : Type} (m : GoMap V) (k : String) (v : V) :
    GoMap.keys (GoMap.set m k v)
      = if k ∈ GoMap.keys m then GoMap.keys m else GoMap.keys m ++ [k] := by
  induction m with
  | nil => simp [GoMap.set, GoMap.keys]
  | cons e rest ih =>
    obtain ⟨k0, v0⟩ := e
    have ih2 : List.map Prod.fst (GoMap.set rest k v)
        = if k ∈ List.map Prod.fst rest then List.map Prod.fst rest
          else List.map Prod.fst rest ++ [k] := ih
    by_cases h0 : k0 = k
    · subst h0
      simp [GoMap.set, GoMap.keys]
    · have h1 : ¬ k = k0 := fun h => h0 h.symm
      by_cases hmem : k ∈ List.map Prod.fst rest
      · simp [GoMap.set, GoMap.keys, h0, h1, ih2, hmem]
      · simp [GoMap.set, GoMap.keys, h0, h1, ih2, hmem]

theorem GoMap.mem_keys_set {V : Type} (m : GoMap V) (k k2 : String) (v : V) :
    k2 ∈ GoMap.keys (GoMap.set m k v) ↔ k2 = k ∨ k2 ∈ GoMap.keys m := by
  rw [GoMap.keys_set]
  by_cases hmem : k ∈ GoMap.keys m
  · simp only [hmem, if_true]
    constructor
    · exact Or.inr
    · rintro (h | h)
      · exact h ▸ hmem
      · exact h
  · simp only [hmem, if_false, List.mem_append, List.mem_singleton]
    exact Or.comm

theorem GoMap.nodup_keys_set {V : Type} (m : GoMap V) (k : String) (v : V)
    (h : (GoMap.keys m).Nodup) : (GoMap.keys (GoMap.set m k v)).Nodup := by
  rw [GoMap.keys_set]
  by_cases hmem : k ∈ GoMap.keys m
  · simpa [hmem] using h
  · simp only [hmem, if_false]
    exact List.Nodup.append h (List.nodup_singleton k) (by simpa using hmem)

theorem toHTTPProxyConf_http (d : HTTPProxyConf R) (pc : ProxyConfig) :
    ∃ hpc, toHTTPProxyConf (ProxyConf.http d) pc = Except.ok hpc ∧
      translated d pc = ProxyConf.http hpc :=
  ⟨_, rfl, rfl⟩

theorem convertLoop_cons_http (d : HTTPProxyConf R) (pc : ProxyConfig)
    (rest : List ProxyConfig) (m : GoMap (ProxyConf R)) :
    convertLoop (ProxyConf.http d) (pc :: rest) m
      = convertLoop (ProxyConf.http d) rest (GoMap.set m pc.Name (translated d pc)) := rfl

theorem convertLoop_http_ok (d : HTTPProxyConf R) (ps : List ProxyConfig)
    (m : GoMap (ProxyConf R)) : ∃ m2, convertLoop (ProxyConf.http d) ps m = Except.ok m2 := by
  induction ps generalizing m with
  | nil => exact ⟨m, rfl⟩
  | cons pc rest ih =>
    rw [convertLoop_cons_http]
    exact ih _

theorem convertLoop_http_keys (d : HTTPProxyConf R) (ps : List ProxyConfig)
    (m m2 : GoMap (ProxyConf R)) (h : convertLoop (ProxyConf.http d) ps m = Except.ok m2) :
    ((GoMap.keys m).Nodup → (GoMap.keys m2).Nodup) ∧
    ∀ k, k ∈ GoMap.keys m2 ↔ k ∈ GoMap.keys m ∨ ∃ pc ∈ ps, pc.Name = k := by
  induction ps generalizing m with
  | nil =>
    have hm : m = m2 := by simpa [convertLoop] using h
    subst hm
    simp
  | cons pc rest ih =>
    rw [convertLoop_cons_http] at h
    obtain ⟨hnd, hmem⟩ := ih _ h
    refine ⟨fun hm => hnd (GoMap.nodup_keys_set m _ _ hm), ?_⟩
    intro k
    rw [hmem k, GoMap.mem_keys_set]
    constructor
    · rintro ((h1 | h1) | ⟨q, hq, hqk⟩)
      · exact Or.inr ⟨pc, List.mem_cons_self _ _, h1.symm⟩
      · exact Or.inl h1
      · exact Or.inr ⟨q, List.mem_cons_of_mem _ hq, hqk⟩
    · rintro (h1 | ⟨q, hq, hqk⟩)
      · exact Or.inl (Or.inr h1)
      · rcases List.mem_cons.1 hq with h2 | h2
        · exact Or.inl (Or.inl (by rw [← hqk, h2]))
        · exact Or.inr ⟨q, h2, hqk⟩

theorem convertLoop_http_get?_other (d : HTTPProxyConf R) (ps : List ProxyConfig)
    (m m2 : GoMap (ProxyConf R)) (k : String)
    (h : convertLoop (ProxyConf.http d) ps m = Except.ok m2)
    (hk : ∀ pc ∈ ps, pc.Name ≠ k) : GoMap.get? m2 k = GoMap.get? m k := by
  induction ps generalizing m with
  | nil =>
    have hm : m = m2 := by simpa [convertLoop] using h
    rw [hm]
  | cons pc rest ih =>
    rw [convertLoop_cons_http] at h
    rw [ih _ h (fun q hq => hk q (List.mem_cons_of_mem _ hq)), GoMap.get?_set]
    simp [hk pc (List.mem_cons_self _ _)]

theorem convertLoop_http_get?_last (d : HTTPProxyConf R) (pre post : List ProxyConfig)
    (pc : ProxyConfig) (m m2 : GoMap (ProxyConf R))
    (h : convertLoop (ProxyConf.http d) (pre ++ pc :: post) m = Except.ok m2)
    (hlast : ∀ p ∈ post, p.Name ≠ pc.Name) :
    GoMap.get? m2 pc.Name = some (translated d pc) := by
  induction pre generalizing m with
  | nil =>
    rw [List.nil_append, convertLoop_cons_http] at h
    rw [convertLoop_http_get?_other d post _ m2 pc.Name h hlast, GoMap.get?_set]
    simp
  | cons q rest ih =>
    rw [List.cons_append, convertLoop_cons_http] at h
    exact ih _ h

theorem dedup_length_eq_iff (names : List String) :
    names.dedup.length = names.length ↔ names.Nodup := by
  constructor
  · intro h
    have heq : names.dedup = names := (List.dedup_sublist names).eq_of_length h
    rw [← heq]
    exact List.nodup_dedup names
  · intro h
    rw [h.dedup]

theorem convertLoop_other_ok (typeName : String) (ps : List ProxyConfig)
    (m m2 : GoMap (ProxyConf R))
    (h : convertLoop (ProxyConf.other typeName) ps m = Except.ok m2) : ps = [] ∧ m2 = m := by
  cases ps with
  | nil =>
    have hm : m = m2 := by simpa [convertLoop] using h
    exact ⟨rfl, hm.symm⟩
  | cons pc rest =>
    simp [convertLoop, toHTTPProxyConf] at h

theorem convertLoop_spec (dflt : ProxyConf R) (ps : List ProxyConfig)
    (m : GoMap (ProxyConf R)) (hm : convertLoop dflt ps [] = Except.ok m) :
    (GoMap.keys m).Nodup ∧
    (∀ k, k ∈ GoMap.keys m ↔ ∃ pc ∈ ps, pc.Name = k) ∧
    GoMap.size m = ((ps.map ProxyConfig.Name).dedup).length ∧
    (∀ pre pc post, ps = pre ++ pc :: post → (∀ p ∈ post, p.Name ≠ pc.Name) →
      ∃ hpc, toHTTPProxyConf dflt pc = Except.ok hpc ∧
        GoMap.get? m pc.Name = some (ProxyConf.http hpc)) ∧
    (∀ k, (∀ pc ∈ ps, pc.Name ≠ k) → GoMap.get? m k = none) ∧
    (GoMap.size m = ps.length ↔ (ps.map ProxyConfig.Name).Nodup) := by
  cases dflt with
  | other typeName =>
    obtain ⟨hps, hm2⟩ := convertLoop_other_ok typeName ps [] m hm
    subst hps
    subst hm2
    refine ⟨List.nodup_nil, by simp [GoMap.keys], by simp [GoMap.size], ?_,
      fun _ _ => rfl, by simp [GoMap.size]⟩
    intro pre pc post hsplit
    simp at hsplit
  | http d =>
    obtain ⟨hnd, hkeys⟩ := convertLoop_http_keys d ps [] m hm
    have hnodup : (GoMap.keys m).Nodup := hnd List.nodup_nil
    have hmem : ∀ k, k ∈ GoMap.keys m ↔ ∃ pc ∈ ps, pc.Name = k := by
      intro k
      rw [hkeys k]
      simp [GoMap.keys]
    have hperm : List.Perm (GoMap.keys m) ((ps.map ProxyConfig.Name).dedup) := by
      rw [List.perm_ext_iff_of_nodup hnodup (List.nodup_dedup _)]
      intro k
      rw [hmem k, List.mem_dedup, List.mem_map]
    have hsize : GoMap.size m = ((ps.map ProxyConfig.Name).dedup).length := by
      rw [← hperm.length_eq]
      simp [GoMap.size, GoMap.keys]
    refine ⟨hnodup, hmem, hsize, ?_, ?_, ?_⟩
    · intro pre pc post hsplit hlast
      obtain ⟨hpc, hok, htr⟩ := toHTTPProxyConf_http d pc
      refine ⟨hpc, hok, ?_⟩
      rw [hsplit] at hm
      rw [convertLoop_http_get?_last d pre post pc [] m hm hlast, htr]
    · intro k hk
      rw [convertLoop_http_get?_other d ps [] m k hm hk]
      rfl
    · rw [hsize, ← List.length_map ps ProxyConfig.Name]
      exact dedup_length_eq_iff _

/-! ## Lifecycle: auxiliary facts -/

theorem configureLogging_isLogging (cfg : config L) :
    ∀ e ∈ (configureLogging cfg : List (Effect L R C)), e.isLogging = true := by
  intro e he
  unfold configureLogging at he
  cases hlg : cfg.CustomLogger with
  | some lg =>
    simp only [hlg, List.mem_cons, List.mem_singleton, List.not_mem_nil, or_false] at he
    rcases he with h | h <;> subst h <;> rfl
  | none =>
    by_cases hname : cfg.AdapterName = ""
    · simp [hlg, hname] at he
    · simp only [hlg, ne_eq, hname, not_false_eq_true, if_true, List.mem_singleton] at he
      subst he
      rfl

theorem applyOpts_gracefulCloseDuration (calls : List (OptCall L)) (c : config L) :
    (applyOpts (calls.map OptCall.toOpt) c).gracefulCloseDuration
      = lastGracefulClose c.gracefulCloseDuration calls := by
  induction calls generalizing c with
  | nil => rfl
  | cons call rest ih =>
    cases call with
    | logAdapter name configs =>
      exact (ih (WithLogAdapter name configs c)).trans rfl
    | customLogger lg =>
      exact (ih (WithCustomLogger lg c)).trans rfl
    | proxies ps =>
      exact (ih (WithProxies ps c)).trans rfl
    | gracefulCloseDuration d =>
      exact (ih (WithGracefulCloseDuration d c)).trans rfl

theorem Run_cases (eng : Engine R C) (serverAddr token : String) (opts : List (ConfigOpt L)) :
    (∃ err, (applyOpts opts config.fresh).validate = some err ∧
      Run eng serverAddr token opts
        = (RunResult.returned (some (GoError.wrap "invalid config: %w" [] err)), [])) ∨
    ((applyOpts opts config.fresh).validate = none ∧
      ∃ err, convertLoop eng.defaultProxyConf (applyOpts opts config.fresh).proxies []
          = Except.error err ∧
        Run eng serverAddr token opts
          = (RunResult.returned (some err), configureLogging (applyOpts opts config.fresh))) ∨
    ((applyOpts opts config.fresh).validate = none ∧
      ∃ pm err, convertLoop eng.defaultProxyConf (applyOpts opts config.fresh).proxies []
          = Except.ok pm ∧
        eng.newService (clientConf eng serverAddr token (applyOpts opts config.fresh)) pm
          = some err ∧
        Run eng serverAddr token opts
          = (RunResult.returned (some (GoError.wrap "failed to init FRP client: %w" [] err)),
              configureLogging (applyOpts opts config.fresh) ++
                [Effect.newService
                  (clientConf eng serverAddr token (applyOpts opts config.fresh)) pm])) ∨
    ((applyOpts opts config.fresh).validate = none ∧
      ∃ pm, convertLoop eng.defaultProxyConf (applyOpts opts config.fresh).proxies []
          = Except.ok pm ∧
        eng.newService (clientConf eng serverAddr token (applyOpts opts config.fresh)) pm
          = none ∧
        ((∃ e, (eng.selected = Outcome.ctxDone e ∨ eng.selected = Outcome.engineDone e) ∧
            Run eng serverAddr token opts
              = (RunResult.returned e,
                  configureLogging (applyOpts opts config.fresh) ++
                    [Effect.newService
                      (clientConf eng serverAddr token (applyOpts opts config.fresh)) pm,
                     Effect.goRun] ++
                    [Effect.gracefulClose
                      (applyOpts opts config.fresh).gracefulCloseDuration])) ∨
          (eng.selected = Outcome.never ∧
            Run eng serverAddr token opts
              = (RunResult.blocked,
                  configureLogging (applyOpts opts config.fresh) ++
                    [Effect.newService
                      (clientConf eng serverAddr token (applyOpts opts config.fresh)) pm,
                     Effect.goRun])))) := by
  cases hv : (applyOpts opts config.fresh).validate with
  | some err =>
    refine Or.inl ⟨err, rfl, ?_⟩
    simp only [Run, hv]
  | none =>
    refine Or.inr ?_
    cases hc : convertLoop eng.defaultProxyConf (applyOpts opts config.fresh).proxies [] with
    | error err =>
      refine Or.inl ⟨rfl, err, rfl, ?_⟩
      simp only [Run, hv, hc]
    | ok pm =>
      refine Or.inr ?_
      cases hn : eng.newService
          (clientConf eng serverAddr token (applyOpts opts config.fresh)) pm with
      | some err =>
        refine Or.inl ⟨rfl, pm, err, rfl, hn, ?_⟩
        simp only [Run, hv, hc, hn]
      | none =>
        refine Or.inr ⟨rfl, pm, rfl, hn, ?_⟩
        cases hs : eng.selected with
        | ctxDone e =>
          refine Or.inl ⟨e, Or.inl rfl, ?_⟩
          simp only [Run, hv, hc, hn, hs]
        | engineDone e =>
          refine Or.inl ⟨e, Or.inr rfl, ?_⟩
          simp only [Run, hv, hc, hn, hs]
        | never =>
          refine Or.inr ⟨rfl, ?_⟩
          simp only [Run, hv, hc, hn, hs]

theorem Effect.not_isLogging_of_isGracefulClose (e : Effect L R C)
    (h : e.isLogging = true) : e.isGracefulClose = false := by
  cases e <;> first | rfl | cases h

theorem Effect.isLogging_of_isSetLogger (e : Effect L R C)
    (h : e.isSetLogger = true) : e.isLogging = true := by
  cases e <;> first | rfl | cases h

theorem configureLogging_filter_isLogging (cfg : config L) :
    (configureLogging cfg : List (Effect L R C)).filter Effect.isLogging
      = configureLogging cfg :=
  List.filter_eq_self.2 (configureLogging_isLogging cfg)

theorem configureLogging_filter_isGracefulClose (cfg : config L) :
    (configureLogging cfg : List (Effect L R C)).filter Effect.isGracefulClose = [] := by
  rw [List.filter_eq_nil_iff]
  intro e he
  rw [Effect.not_isLogging_of_isGracefulClose e (configureLogging_isLogging cfg e he)]
  simp

theorem configureLogging_setLogger_le_one (cfg : config L) :
    ((configureLogging cfg : List (Effect L R C)).filter Effect.isSetLogger).length ≤ 1 := by
  unfold configureLogging
  cases cfg.CustomLogger with
  | some lg => simp [Effect.isSetLogger]
  | none =>
    by_cases hname : cfg.AdapterName = ""
    · simp [hname]
    · simp [hname, Effect.isSetLogger]

theorem Run_trace_logging_first (eng : Engine R C) (serverAddr token : String)
    (opts : List (ConfigOpt L)) (hv : (applyOpts opts config.fresh).validate = none) :
    ∃ rest, (Run eng serverAddr token opts).2
        = configureLogging (applyOpts opts config.fresh) ++ rest ∧
      ∀ e ∈ rest, e.isLogging = false := by
  rcases Run_cases eng serverAddr token opts with
    ⟨err, h1, _⟩ | ⟨_, err, _, h2⟩ | ⟨_, pm, err, _, _, h2⟩ |
    ⟨_, pm, _, _, ⟨e, _, h2⟩ | ⟨_, h2⟩⟩
  · rw [hv] at h1
    cases h1
  · exact ⟨[], by rw [h2, List.append_nil], by simp⟩
  · refine ⟨_, by rw [h2], ?_⟩
    intro x hx
    rw [List.mem_singleton] at hx
    subst hx
    rfl
  · refine ⟨_, by rw [h2, List.append_assoc], ?_⟩
    intro x hx
    simp only [List.cons_append, List.nil_append, List.mem_cons, List.mem_singleton,
      List.not_mem_nil, or_false] at hx
    rcases hx with hx | hx | hx <;> subst hx <;> rfl
  · refine ⟨_, by rw [h2], ?_⟩
    intro x hx
    simp only [List.mem_cons, List.mem_singleton, List.not_mem_nil, or_false] at hx
    rcases hx with hx | hx <;> subst hx <;> rfl

/-! ## Translation: the claim -/

/-- C6: when the engine's default configuration for the HTTP proxy kind has the HTTP shape,
`toHTTPProxyConf pc` succeeds and returns that default with `ProxyName`, `UseEncryption`,
`UseCompression` and `LocalPort` taken from `pc`, the domain configuration set to the
subdomain `pc.TargetDomain` with no custom domains, and `Locations = ["/"]`, every other
field kept; for the descriptor `{test, testsite, true, true, 3000}` this is subdomain
`testsite`, path `/`, port `3000`, encryption and compression on; and the translation fails
exactly when the default is not of the HTTP shape. -/
theorem C6_toHTTPProxyConf (d : HTTPProxyConf R) (pc : ProxyConfig) :
    toHTTPProxyConf (ProxyConf.http d) pc = Except.ok
      { ProxyName := pc.Name, UseEncryption := pc.UseEncryption,
        UseCompression := pc.UseCompression, LocalPort := pc.LocalPort,
        DomainConf := { CustomDomains := [], SubDomain := pc.TargetDomain },
        Locations := ["/"], rest := d.rest } ∧
    toHTTPProxyConf (ProxyConf.http d) testProxy = Except.ok
      { ProxyName := "test", UseEncryption := true, UseCompression := true, LocalPort := 3000,
        DomainConf := { CustomDomains := [], SubDomain := "testsite" },
        Locations := ["/"], rest := d.rest } ∧
    (∀ dflt : ProxyConf R,
      (∃ err, toHTTPProxyConf dflt pc = Except.error err) ↔ ∀ d2, dflt ≠ ProxyConf.http d2) := by
  refine ⟨rfl, rfl, ?_⟩
  intro dflt
  cases dflt with
  | http d2 =>
    constructor
    · rintro ⟨err, herr⟩
      cases herr
    · intro h
      exact absurd rfl (h d2)
  | other typeName =>
    constructor
    · intro _ d2 h
      cases h
    · intro _
      exact ⟨_, rfl⟩

/-! ## Lifecycle: the claims -/

/-- C7: once the engine has been constructed and started (the trace of `Run` holds the start
of the run loop), `Run` returns `ctx.Err()` when the cancellation case of the `select` fires
and the value returned by the engine's run loop when the completion case fires; whenever it
returns, the returned value is one of these two; and what the deferred graceful-shutdown
call reports never changes the result. -/
theorem C7_returned_error (eng : Engine R C) (serverAddr token : String)
    (opts : List (ConfigOpt L))
    (hstart : Effect.goRun ∈ (Run eng serverAddr token opts).2) :
    (∀ ctxErr, eng.selected = Outcome.ctxDone ctxErr →
      (Run eng serverAddr token opts).1 = RunResult.returned ctxErr) ∧
    (∀ runErr, eng.selected = Outcome.engineDone runErr →
      (Run eng serverAddr token opts).1 = RunResult.returned runErr) ∧
    (∀ r, (Run eng serverAddr token opts).1 = RunResult.returned r →
      eng.selected = Outcome.ctxDone r ∨ eng.selected = Outcome.engineDone r) ∧
    (∀ g : Option GoError,
      (Run { eng with gracefulCloseResult := g } serverAddr token opts).1
        = (Run eng serverAddr token opts).1) := by
  have hlog : ∀ cfg : config L, Effect.goRun ∉ (configureLogging cfg : List (Effect L R C)) :=
    fun cfg hmem => by
      have := configureLogging_isLogging cfg _ hmem
      cases this
  rcases Run_cases eng serverAddr token opts with
    ⟨err, _, h2⟩ | ⟨_, err, _, h2⟩ | ⟨_, pm, err, _, _, h2⟩ |
    ⟨_, pm, _, _, ⟨e, hsel, h2⟩ | ⟨hsel, h2⟩⟩
  · rw [h2] at hstart
    cases hstart
  · rw [h2] at hstart
    exact absurd hstart (hlog _)
  · rw [h2] at hstart
    rcases List.mem_append.1 hstart with h | h
    · exact absurd h (hlog _)
    · simp at h
  · refine ⟨?_, ?_, ?_, fun _ => rfl⟩
    · intro ctxErr hc
      rw [h2]
      rcases hsel with hsel | hsel <;> rw [hsel] at hc <;> cases hc
      rfl
    · intro runErr hc
      rw [h2]
      rcases hsel with hsel | hsel <;> rw [hsel] at hc <;> cases hc
      rfl
    · intro r hr
      rw [h2] at hr
      cases hr
      exact hsel
  · refine ⟨?_, ?_, ?_, fun _ => rfl⟩
    · intro ctxErr hc
      rw [hsel] at hc
      cases hc
    · intro runErr hc
      rw [hsel] at hc
      cases hc
    · intro r hr
      rw [h2] at hr
      cases hr

/-- C7 at concrete inputs: with the example options the engine is started; when the caller
cancels first `Run` returns the context error, and when the run loop finishes first with an
error `Run` returns that error. -/
theorem C7_returned_error_witness :
    Effect.goRun ∈ (Run engineCancelled "frp.mydomain.com" "secret" exampleOpts).2 ∧
    (Run engineCancelled "frp.mydomain.com" "secret" exampleOpts).1
      = RunResult.returned (some (GoError.foreign "context canceled")) ∧
    Effect.goRun ∈ (Run engineFailed "frp.mydomain.com" "secret" exampleOpts).2 ∧
    (Run engineFailed "frp.mydomain.com" "secret" exampleOpts).1
      = RunResult.returned (some (GoError.foreign "login to server failed")) :=
  ⟨by decide,
    (C7_returned_error engineCancelled "frp.mydomain.com" "secret" exampleOpts
      (by decide)).1 _ rfl,
    by decide,
    (C7_returned_error engineFailed "frp.mydomain.com" "secret" exampleOpts
      (by decide)).2.1 _ rfl⟩

/-- C8: on the validation-failure path `Run` returns `invalid config: %w` wrapping the
validation error and its trace is empty (no logging call, no engine construction, no
shutdown call); and on every path on which the engine was constructed successfully and `Run`
returns, the trace holds exactly one graceful-shutdown call, it is the last entry, and its
argument is the value of the last `WithGracefulCloseDuration` option, five seconds when
there is none. -/
theorem C8_graceful_close (eng : Engine R C) (serverAddr token : String)
    (calls : List (OptCall L)) :
    (∀ err, (applyOpts (calls.map OptCall.toOpt) config.fresh).validate = some err →
      Run eng serverAddr token (calls.map OptCall.toOpt)
        = (RunResult.returned (some (GoError.wrap "invalid config: %w" [] err)), [])) ∧
    (∀ r, (∃ conf pm,
          Effect.newService conf pm ∈ (Run eng serverAddr token (calls.map OptCall.toOpt)).2 ∧
          eng.newService conf pm = none) →
      (Run eng serverAddr token (calls.map OptCall.toOpt)).1 = RunResult.returned r →
      (Run eng serverAddr token (calls.map OptCall.toOpt)).2.filter Effect.isGracefulClose
          = [Effect.gracefulClose (lastGracefulClose (5 * Second) calls)] ∧
        (Run eng serverAddr token (calls.map OptCall.toOpt)).2.getLast?
          = some (Effect.gracefulClose (lastGracefulClose (5 * Second) calls))) := by
  have hlog : ∀ (cfg : config L) conf pm,
      Effect.newService conf pm ∉ (configureLogging cfg : List (Effect L R C)) :=
    fun cfg conf pm hmem => by
      have := configureLogging_isLogging cfg _ hmem
      cases this
  have hd : (applyOpts (calls.map OptCall.toOpt) (config.fresh : config L)).gracefulCloseDuration
      = lastGracefulClose (5 * Second) calls :=
    applyOpts_gracefulCloseDuration calls config.fresh
  constructor
  · intro err herr
    simp only [Run, herr]
  · rintro r ⟨conf, pm, hmem, hok⟩ hret
    rcases Run_cases eng serverAddr token (calls.map OptCall.toOpt) with
      ⟨err, _, h2⟩ | ⟨_, err, _, h2⟩ | ⟨_, pm2, err, _, hn, h2⟩ |
      ⟨_, pm2, _, _, ⟨e, _, h2⟩ | ⟨_, h2⟩⟩
    · rw [h2] at hmem
      cases hmem
    · rw [h2] at hmem
      exact absurd hmem (hlog _ _ _)
    · rw [h2] at hmem
      rcases List.mem_append.1 hmem with h | h
      · exact absurd h (hlog _ _ _)
      · rw [List.mem_singleton] at h
        cases h
        rw [hn] at hok
        cases hok
    · rw [h2, ← hd]
      constructor
      · simp only [List.filter_append, configureLogging_filter_isGracefulClose]
        rfl
      · simp
    · rw [h2] at hret
      cases hret

/-- C8 at concrete inputs: a descriptor without a name gives the wrapped validation error
and an empty trace; two budget options give one shutdown call with the second budget. -/
theorem C8_graceful_close_witness :
    Run engineCancelled "frp.mydomain.com" "secret" (invalidCalls.map OptCall.toOpt)
      = (RunResult.returned (some (GoError.wrap "invalid config: %w" []
          (GoError.wrap "failed to validate proxy %q: %w" [""]
            (GoError.new "no proxy name was specified")))), []) ∧
    lastGracefulClose (5 * Second) twoBudgets = 9000000000 ∧
    (Run engineFailed "frp.mydomain.com" "secret"
        (twoBudgets.map OptCall.toOpt)).2.filter Effect.isGracefulClose
      = [Effect.gracefulClose (lastGracefulClose (5 * Second) twoBudgets)] :=
  ⟨(C8_graceful_close engineCancelled "frp.mydomain.com" "secret" invalidCalls).1 _
      (by decide),
    by decide,
    ((C8_graceful_close engineFailed "frp.mydomain.com" "secret" twoBudgets).2
      (some (GoError.foreign "login to server failed"))
      ⟨clientConf engineFailed "frp.mydomain.com" "secret"
          (applyOpts (twoBudgets.map OptCall.toOpt) config.fresh),
        [("test", translated defaultHTTP testProxy)], by decide, rfl⟩
      (by decide)).1⟩

/-- C9, as stated, fails: with only a custom logger selected the configuration validates and
`Run` selects the adapter `custom` with the one-element argument list `[""]`, not with an
empty argument list. -/
theorem C9_counterexample :
    (applyOpts customLoggerOpts config.fresh).validate = none ∧
    (Run engineCancelled "frp.mydomain.com" "secret" customLoggerOpts).2.filter
        Effect.isLogging
      = [Effect.register "custom" Unit.unit, Effect.setLogger "custom" [""]] ∧
    Effect.setLogger "custom" []
      ∉ (Run engineCancelled "frp.mydomain.com" "secret" customLoggerOpts).2 ∧
    ¬ (∀ (eng : Engine Unit Unit) (opts : List (ConfigOpt Unit)),
        (applyOpts opts config.fresh).validate = none →
        ∀ lg, (applyOpts opts config.fresh).CustomLogger = some lg →
          (Run eng "frp.mydomain.com" "secret" opts).2.filter Effect.isLogging
            = [Effect.register "custom" lg, Effect.setLogger "custom" []]) := by
  refine ⟨by decide, by decide, by decide, ?_⟩
  intro h
  have h2 := h engineCancelled customLoggerOpts (by decide) Unit.unit (by decide)
  revert h2
  decide

/-- C9, amended: for a validated configuration the logging calls of `Run` are: with a custom
logger, its registration under the name `custom` followed by the selection of `custom` with
the single argument `""`; otherwise, with a non-empty adapter name, the selection of that
adapter with the `AdapterConfig` list unchanged; otherwise none at all. At most one
selection is made, and every logging call precedes all other calls of the trace, the engine
construction included. -/
theorem C9_logging_binding (eng : Engine R C) (serverAddr token : String)
    (opts : List (ConfigOpt L)) (hv : (applyOpts opts config.fresh).validate = none) :
    (∀ lg, (applyOpts opts config.fresh).CustomLogger = some lg →
      (Run eng serverAddr token opts).2.filter Effect.isLogging
        = [Effect.register "custom" lg, Effect.setLogger "custom" [""]]) ∧
    ((applyOpts opts config.fresh).CustomLogger = none →
      (applyOpts opts config.fresh).AdapterName ≠ "" →
      (Run eng serverAddr token opts).2.filter Effect.isLogging
        = [Effect.setLogger (applyOpts opts config.fresh).AdapterName
            (applyOpts opts config.fresh).AdapterConfig]) ∧
    ((applyOpts opts config.fresh).CustomLogger = none →
      (applyOpts opts config.fresh).AdapterName = "" →
      (Run eng serverAddr token opts).2.filter Effect.isLogging = []) ∧
    ((Run eng serverAddr token opts).2.filter Effect.isSetLogger).length ≤ 1 ∧
    (∃ rest, (Run eng serverAddr token opts).2
        = (Run eng serverAddr token opts).2.filter Effect.isLogging ++ rest ∧
      ∀ e ∈ rest, e.isLogging = false) := by
  obtain ⟨rest, htrace, hrest⟩ := Run_trace_logging_first eng serverAddr token opts hv
  have hrest2 : rest.filter Effect.isLogging = [] := by
    rw [List.filter_eq_nil_iff]
    intro e he
    rw [hrest e he]
    simp
  have hfilter : (Run eng serverAddr token opts).2.filter Effect.isLogging
      = configureLogging (applyOpts opts config.fresh) := by
    rw [htrace, List.filter_append, configureLogging_filter_isLogging, hrest2,
      List.append_nil]
  have hrest3 : rest.filter Effect.isSetLogger = [] := by
    rw [List.filter_eq_nil_iff]
    intro e he hset
    have := Effect.isLogging_of_isSetLogger e hset
    rw [hrest e he] at this
    cases this
  refine ⟨?_, ?_, ?_, ?_, ?_⟩
  · intro lg hlg
    rw [hfilter]
    simp only [configureLogging, hlg]
  · intro hlg hname
    rw [hfilter]
    simp only [configureLogging, hlg, ne_eq, hname, not_false_eq_true, if_true]
  · intro hlg hname
    rw [hfilter]
    simp [configureLogging, hlg, hname]
  · rw [htrace, List.filter_append, hrest3, List.append_nil]
    exact configureLogging_setLogger_le_one _
  · exact ⟨rest, by rw [hfilter]; exact htrace, hrest⟩

/-- C9 amended, at concrete inputs: the logging calls for a custom logger. -/
theorem C9_logging_binding_witness :
    (applyOpts customLoggerOpts config.fresh).validate = none ∧
    (Run engineFailed "frp.mydomain.com" "secret" customLoggerOpts).2.filter Effect.isLogging
      = [Effect.register "custom" Unit.unit, Effect.setLogger "custom" [""]] :=
  ⟨by decide,
    (C9_logging_binding engineFailed "frp.mydomain.com" "secret" customLoggerOpts
      (by decide)).1 Unit.unit (by decide)⟩

/-- C10: for a validated descriptor list, whenever the loop of `Run` builds the proxy map
`m` (which it does, without error, for every list when the engine default has the HTTP
shape), `m` is the map handed to the engine constructor, its keys are pairwise distinct and
are exactly the descriptor names, it has one entry per distinct name, the entry of a name is
the translation of the last descriptor carrying it, it has no entry for any other name, and
its size equals the number of descriptors exactly when the names are pairwise distinct. -/
theorem C10_proxy_map (eng : Engine R C) (serverAddr token : String)
    (opts : List (ConfigOpt L))
    (hv : (applyOpts opts config.fresh).validate = none) :
    (∀ d, eng.defaultProxyConf = ProxyConf.http d →
      ∃ m, convertLoop eng.defaultProxyConf (applyOpts opts config.fresh).proxies []
        = Except.ok m) ∧
    ∀ m : GoMap (ProxyConf R),
      convertLoop eng.defaultProxyConf (applyOpts opts config.fresh).proxies []
        = Except.ok m →
      Effect.newService (clientConf eng serverAddr token (applyOpts opts config.fresh)) m
        ∈ (Run eng serverAddr token opts).2 ∧
      (GoMap.keys m).Nodup ∧
      (∀ k, k ∈ GoMap.keys m ↔ ∃ pc ∈ (applyOpts opts config.fresh).proxies, pc.Name = k) ∧
      GoMap.size m
        = (((applyOpts opts config.fresh).proxies.map ProxyConfig.Name).dedup).length ∧
      (∀ pre pc post, (applyOpts opts config.fresh).proxies = pre ++ pc :: post →
        (∀ p ∈ post, p.Name ≠ pc.Name) →
        ∃ hpc, toHTTPProxyConf eng.defaultProxyConf pc = Except.ok hpc ∧
          GoMap.get? m pc.Name = some (ProxyConf.http hpc)) ∧
      (∀ k, (∀ pc ∈ (applyOpts opts config.fresh).proxies, pc.Name ≠ k) →
        GoMap.get? m k = none) ∧
      (GoMap.size m = (applyOpts opts config.fresh).proxies.length ↔
        ((applyOpts opts config.fresh).proxies.map ProxyConfig.Name).Nodup) := by
  constructor
  · intro d hd
    rw [hd]
    exact convertLoop_http_ok d _ []
  · intro m hm
    refine ⟨?_, convertLoop_spec eng.defaultProxyConf _ m hm⟩
    rcases Run_cases eng serverAddr token opts with
      ⟨err, h1, _⟩ | ⟨_, err, h1, _⟩ | ⟨_, pm, err, h1, _, h2⟩ |
      ⟨_, pm, h1, _, ⟨e, _, h2⟩ | ⟨_, h2⟩⟩
    · rw [hv] at h1
      cases h1
    · rw [hm] at h1
      cases h1
    · rw [hm] at h1
      cases h1
      rw [h2]
      simp
    · rw [hm] at h1
      cases h1
      rw [h2]
      simp
    · rw [hm] at h1
      cases h1
      rw [h2]
      simp

/-- C10 at concrete inputs: two descriptors named `test` give a one-entry map that holds the
translation of the second. -/
theorem C10_proxy_map_witness :
    engineCancelled.defaultProxyConf = ProxyConf.http defaultHTTP ∧
    (applyOpts sameNameOpts config.fresh).validate = none ∧
    ∃ m : GoMap (ProxyConf Unit),
      convertLoop engineCancelled.defaultProxyConf (applyOpts sameNameOpts config.fresh).proxies []
        = Except.ok m ∧
      GoMap.size m = 1 ∧
      ∃ hpc, toHTTPProxyConf engineCancelled.defaultProxyConf testProxyAgain = Except.ok hpc ∧
        GoMap.get? m "test" = some (ProxyConf.http hpc) := by
  have hspec := C10_proxy_map engineCancelled "frp.mydomain.com" "secret" sameNameOpts
    (by decide)
  obtain ⟨m, hm⟩ := hspec.1 defaultHTTP rfl
  obtain ⟨_, _, _, hsize, hlast, _, _⟩ := hspec.2 m hm
  refine ⟨rfl, by decide, m, hm, ?_, ?_⟩
  · rw [hsize]
    decide
  · exact hlast [testProxy] testProxyAgain [] rfl (by simp)

end Frpembed
